import Mathlib

/-!
Verification of the ShootingStar Deep Research / Model Council core.

This file shallowly embeds the orchestration code of the repository:

* `src/services/search.ts`        — `braveSearch`, `fetchPageContent`, `enrichSources`
* `src/components/DeepResearch.tsx` — the research step engine (`startResearch`,
  `createResearchPlan`, `identifyGaps`, `synthesizeReport`, `updateStepStatus`,
  `stopResearch`)
* the deep-research service (url-keyed source map in `executeResearch`)
* `src/services/modelCouncil.ts`  — `runCouncil`, `analyzeConsensus`, `voteForBest`
* the Model Council panel (`startCouncil`, `voteForModel`, `getConsensusHighlights`)

External I/O (HTTP fetches, model calls, the abort flag) is represented by
explicit outcome parameters; the engines' control flow, state updates and
string computations are translated directly from the source.
-/

namespace ShootingStar

/-! ## Data model shared by both engines (search.ts `Source`) -/

/-- `Source` from search.ts: `title`, `url`, `domain` required, `snippet` and
`content` optional. -/
structure Source where
  title : String
  url : String
  domain : String
  snippet : Option String := none
  content : Option String := none
deriving DecidableEq, Repr

/-! ## search.ts: fetchPageContent and enrichSources -/

/-- Outcome of the proxied page fetch inside `fetchPageContent`: the HTTP
request either succeeds with a body, returns a non-2xx status, or throws. -/
inductive FetchOutcome where
  | ok (body : String)
  | httpFail
  | netFail
deriving DecidableEq, Repr

/-- `fetchPageContent` (search.ts 83-98): returns the response text on
success, and the empty string on a non-2xx status or on a thrown error —
it never propagates a failure. -/
def fetchPageContent : FetchOutcome → String
  | .ok body => body
  | .httpFail => ""
  | .netFail => ""

/-- The per-source body of `enrichSources` (search.ts 103-106): fetch the
page, and fall back to the snippet when the fetched content is empty
(JS `content || source.snippet`). -/
def enrichOne (fetch : String → FetchOutcome) (s : Source) : Source :=
  let content := fetchPageContent (fetch s.url)
  { s with content := if content = "" then s.snippet else some content }

/-- `enrichSources` (search.ts 101-110): `sources.slice(0, 3)` mapped through
the per-source enrichment; sources past the first three are dropped. -/
def enrichSources (fetch : String → FetchOutcome) (sources : List Source) : List Source :=
  (sources.take 3).map (enrichOne fetch)

/-! ## DeepResearch.tsx: plan, gap analysis, synthesis -/

/-- Split a list of characters at each occurrence of `sep`
(JS `String.prototype.split` with a single-character separator: runs are
not merged, so empty pieces are kept). -/
def splitOnCharAux (sep : Char) : List Char → List Char → List String
  | [], acc => [String.mk acc.reverse]
  | c :: rest, acc =>
    if c = sep then String.mk acc.reverse :: splitOnCharAux sep rest []
    else splitOnCharAux sep rest (c :: acc)

/-- JS `s.split('\n')`. -/
def splitLines (s : String) : List String :=
  splitOnCharAux '\n' s.toList []

/-- The deterministic fallback plan of `createResearchPlan`
(DeepResearch.tsx 112-119). -/
def fallbackQueries (q : String) : List String :=
  [q ++ " overview", q ++ " latest developments",
   q ++ " examples and case studies", q ++ " expert opinions"]

/-- `createResearchPlan` (DeepResearch.tsx 79-120): the model call either
yields a content string (split into non-blank lines) or fails, in which case
the deterministic four-query template is returned; the function itself never
fails. -/
def createResearchPlan (q : String) : Except Unit String → List String
  | .ok content => (splitLines content).filter (fun l => l.trim.length > 0)
  | .error _ => fallbackQueries q

/-- `identifyGaps` (DeepResearch.tsx 163-198): non-blank lines of the model
answer, capped at 2; any failure yields the empty gap list. -/
def identifyGaps : Except Unit String → List String
  | .ok content => ((splitLines content).filter (fun l => l.trim.length > 0)).take 2
  | .error _ => []

/-- `synthesizeReport` (DeepResearch.tsx 200-238): the model call either
fails (caught: fixed fallback message), or returns an optional content field;
a missing or empty content falls back to `'Report synthesis failed'`
(JS `data.choices[0]?.message?.content || 'Report synthesis failed'`). -/
def synthesizeReport : Except Unit (Option String) → String
  | .error _ => "Unable to synthesize final report. Please review the individual findings above."
  | .ok none => "Report synthesis failed"
  | .ok (some content) => if content = "" then "Report synthesis failed" else content

/-! ## DeepResearch.tsx: the step engine `startResearch`

The engine's interaction with the outside world is captured by a `ResEnv`:
the outcome of each provider call and the checkpoint index (if any) at which
the cooperative abort flag is first observed `true`.  `runEvents` replays the
exact control flow of `startResearch` (DeepResearch.tsx 240-346) and records
the session updates and provider calls it performs, in order. -/

/-- Step status (DeepResearch.tsx `ResearchStep.status`, also the panel's
`ModelResponse.status`). -/
inductive Status where
  | pending
  | running
  | completed
  | error
deriving DecidableEq, Repr

/-- The six fixed step ids created by `startResearch`
(`plan`, `search-1`, `analyze-1`, `followup`, `search-2`, `synthesize`). -/
inductive StepId where
  | plan
  | search1
  | analyze1
  | followup
  | search2
  | synthesize
deriving DecidableEq, Repr

/-- One observable action of `startResearch`:
* `setStatus` — a call to `updateStepStatus`;
* `setResult` — a call to `updateStepResult`;
* `call` — a provider interaction (an `executeSearch` with its search /
  enrich / summarize fetches, or a single model call);
* `stopObserved` — an `if (abortRef.current) return` checkpoint that read the
  flag as set and returned;
* `finish` — the `setSession` that stores the final report and clears
  `isRunning`;
* `setNotRunning` — the `catch` handler clearing `isRunning` after a thrown
  provider failure. -/
inductive REvent where
  | setStatus (id : StepId) (st : Status)
  | setResult (id : StepId)
  | call
  | stopObserved
  | finish (report : String)
  | setNotRunning
deriving DecidableEq, Repr

/-- The abort flag is set once and stays set: reading it at checkpoint `k`
yields `true` exactly when the stop request happened at or before `k`. -/
def abortedAt (stopTime : Option Nat) (k : Nat) : Bool :=
  match stopTime with
  | none => false
  | some t => t ≤ k

/-- Outcome of one `executeSearch` call: `braveSearch` either throws
(non-2xx or network failure) or yields sources; enrichment and the summary
fallback never throw, so a successful search always yields a
`(sources, summary)` pair. -/
def SearchOutcome := Except Unit (List Source × String)

/-- How one of the two sub-query loops in `startResearch` ended. -/
inductive LoopExit where
  | normal
  | abortObserved
  | threw
deriving DecidableEq, Repr

/-- One of the two `for (const q of queries)` loops of `startResearch`
(lines 279-284 and 311-316): before each iteration the abort flag is read
(checkpoint `k`); then `executeSearch` runs, either throwing (which
propagates) or succeeding.  Returns the emitted events, the next checkpoint
index, and how the loop ended. -/
def searchLoop (stopTime : Option Nat) :
    Nat → List String → List SearchOutcome → List REvent × Nat × LoopExit
  | k, [], _ => ([], k, .normal)
  | k, _ :: qs, outs =>
    if abortedAt stopTime k then ([.stopObserved], k + 1, .abortObserved)
    else
      match outs.headD (.ok ([], "")) with
      | .error _ => ([.call], k + 1, .threw)
      | .ok _ =>
        let rest := searchLoop stopTime (k + 1) qs outs.tail
        (.call :: rest.1, rest.2.1, rest.2.2)

/-- The environment of one `startResearch` run: the original query, the
outcome of every provider call the run may perform, and the checkpoint index
at which a stop request is first observed (`none` = never). -/
structure ResEnv where
  query : String
  planOutcome : Except Unit String
  outcomes1 : List SearchOutcome
  gapsOutcome : Except Unit String
  outcomes2 : List SearchOutcome
  synthOutcome : Except Unit (Option String)
  stopTime : Option Nat

/-- Events of the plan step (DeepResearch.tsx 270-273): status to running,
the plan model call (which never throws — failures fall back), the result,
status to completed. -/
def planEvents : List REvent :=
  [.setStatus .plan .running, .call, .setResult .plan, .setStatus .plan .completed]

/-- The tail of the run from the post-`search-2` checkpoint on
(DeepResearch.tsx 324-338): abort check, then the synthesize step, whose
model call never throws. -/
def synthEvents (env : ResEnv) (k : Nat) : List REvent :=
  if abortedAt env.stopTime k then [.stopObserved]
  else
    [.setStatus .synthesize .running, .call,
     .finish (synthesizeReport env.synthOutcome),
     .setResult .synthesize, .setStatus .synthesize .completed]

/-- The `search-2` stage (DeepResearch.tsx 308-322) entered at checkpoint
`k`: when gaps were found, the second search loop runs (a throw propagating
to the `catch` handler); when no gaps were found, the step is marked
completed immediately with a skipped result and no provider call. -/
def gapsEvents (env : ResEnv) (k : Nat) : List REvent :=
  let gaps := identifyGaps env.gapsOutcome
  if gaps.length > 0 then
    .setStatus .search2 .running ::
    (let r2 := searchLoop env.stopTime k gaps env.outcomes2
     r2.1 ++
     match r2.2.2 with
     | .abortObserved => []
     | .threw => [.setNotRunning]
     | .normal =>
       [.setResult .search2, .setStatus .search2 .completed] ++ synthEvents env r2.2.1)
  else
    [.setStatus .search2 .completed, .setResult .search2] ++ synthEvents env k

/-- The stages following a normally completed first search loop
(DeepResearch.tsx 285-322), with `k` the next checkpoint index: finish
`search-1`, then the abort-checked `analyze-1`, `followup` and `search-2`
stages. -/
def midEvents (env : ResEnv) (k : Nat) : List REvent :=
  [.setResult .search1, .setStatus .search1 .completed] ++
  if abortedAt env.stopTime k then [.stopObserved] else
  [.setStatus .analyze1 .running, .setResult .analyze1,
   .setStatus .analyze1 .completed] ++
  if abortedAt env.stopTime (k + 1) then [.stopObserved] else
  [.setStatus .followup .running, .call, .setResult .followup,
   .setStatus .followup .completed] ++
  if abortedAt env.stopTime (k + 2) then [.stopObserved] else
  gapsEvents env (k + 3)

/-- The full ordered event trace of one `startResearch` run
(DeepResearch.tsx 268-346), for the given environment.  Checkpoints are
numbered in program order: 0 after the plan step, `1..n` at the heads of the
first search loop's iterations, then one after each of `search-1`,
`analyze-1` and `followup`, then the second loop's iteration heads, then one
before `synthesize`.  A thrown `executeSearch` propagates to the `catch`
handler, which only clears `isRunning`. -/
def runEvents (env : ResEnv) : List REvent :=
  planEvents ++
  if abortedAt env.stopTime 0 then [.stopObserved] else
  .setStatus .search1 .running ::
  (let r1 := searchLoop env.stopTime 1 (createResearchPlan env.query env.planOutcome)
      env.outcomes1
   r1.1 ++
   match r1.2.2 with
   | .abortObserved => []
   | .threw => [.setNotRunning]
   | .normal => midEvents env r1.2.1)

/-- The session state the events act on: per-step status, the running flag,
the final report, and whether the completion transition (which also sets
`endTime`) has happened. -/
structure RSession where
  statuses : StepId → Status
  isRunning : Bool
  finalReport : Option String
  ended : Bool

/-- The freshly created session of `startResearch` (DeepResearch.tsx
246-260): all steps pending, running, no report. -/
def initialSession : RSession :=
  { statuses := fun _ => .pending, isRunning := true, finalReport := none, ended := false }

/-- Apply one engine event to the session, mirroring the corresponding
`setSession` call. -/
def applyEvent (s : RSession) : REvent → RSession
  | .setStatus id st => { s with statuses := fun j => if j = id then st else s.statuses j }
  | .setResult _ => s
  | .call => s
  | .stopObserved => s
  | .finish report =>
    { s with finalReport := some report, isRunning := false, ended := true }
  | .setNotRunning => { s with isRunning := false }

/-- Fold a whole event trace over a session. -/
def applyEvents (s : RSession) (l : List REvent) : RSession :=
  l.foldl applyEvent s

/-- `stopResearch` (DeepResearch.tsx 372-376): sets the abort flag and
immediately clears `isRunning`. -/
def stopResearch (s : RSession) : RSession :=
  { s with isRunning := false }

/-- The sequence of statuses assigned to step `id` by a trace. -/
def statusesOf (id : StepId) (l : List REvent) : List Status :=
  l.filterMap (fun e =>
    match e with
    | .setStatus i st => if i = id then some st else none
    | _ => none)

/-! ## The url-keyed source collection of the research service

`executeResearch` merges every enriched source into a JS `Map` keyed by
`source.url` (`allSources.set(source.url, source)`); `generateReport`
deduplicates the same way.  A JS `Map.set` overwrites the value of an
existing key in place and appends a new key at the end. -/

/-- JS `Map.set` on an insertion-ordered association list: overwrite the
entry of an existing key in place, append a new key at the end. -/
def mapSet : List (String × Source) → String → Source → List (String × Source)
  | [], k, v => [(k, v)]
  | p :: rest, k, v => if p.1 = k then (k, v) :: rest else p :: mapSet rest k v

/-- `enriched.forEach(source => allSources.set(source.url, source))`:
merge a source list into the url-keyed collection. -/
def addSources (m : List (String × Source)) (l : List Source) :
    List (String × Source) :=
  l.foldl (fun acc s => mapSet acc s.url s) m

/-- The merge performed by the DeepResearch component instead
(`allSources.push(...sources)`, DeepResearch.tsx 283 and 315): plain
concatenation. -/
def pushSources (acc newSources : List Source) : List Source :=
  acc ++ newSources

/-! ## modelCouncil.ts: the council service -/

/-- `CouncilResponse` from modelCouncil.ts. -/
structure CouncilResponse where
  modelId : String
  content : String
  isLoading : Bool
  error : Option String := none
  timestamp : Option Nat := none
deriving DecidableEq, Repr

/-- `CouncilResult` from modelCouncil.ts. -/
structure CouncilResult where
  query : String
  responses : List CouncilResponse
  consensus : Option String := none
  disagreements : Option (List String) := none
  bestResponseId : Option String := none
  votingResults : Option (List (String × Int)) := none
deriving DecidableEq, Repr

/-- JS word character, i.e. what `\w` matches: ASCII alphanumeric or
underscore. -/
def jsWordChar (c : Char) : Bool := c.isAlphanum || c = '_'

/-- `replace(/[^\w\s]/g, '')`: drop every character that is neither a word
character nor whitespace. -/
def stripNonWord (cs : List Char) : List Char :=
  cs.filter (fun c => jsWordChar c || c.isWhitespace)

/-- `split(/\s+/)` restricted to its non-empty pieces: cut the character list
at whitespace runs.  (JS keeps a leading empty piece, but every use site
filters by `length > 4`, which discards empty pieces anyway.) -/
def splitWsAux : List Char → List Char → List String
  | [], [] => []
  | [], acc => [String.mk acc.reverse]
  | c :: rest, acc =>
    if c.isWhitespace then
      match acc with
      | [] => splitWsAux rest []
      | _ => String.mk acc.reverse :: splitWsAux rest []
    else splitWsAux rest (c :: acc)

/-- The token list of one response inside `analyzeConsensus`
(modelCouncil.ts 243-248): lowercase, strip punctuation, split on
whitespace, keep words longer than 4 characters. -/
def tokenize (s : String) : List String :=
  (splitWsAux (stripNonWord (s.toList.map Char.toLower)) []).filter
    (fun w => w.length > 4)

/-- The responses `analyzeConsensus` treats as completed
(`!r.isLoading && !r.error && r.content`). -/
def completedOf (responses : List CouncilResponse) : List CouncilResponse :=
  responses.filter (fun r => !r.isLoading && r.error.isNone && !(r.content == ""))

/-- `commonTerms` of `analyzeConsensus` (modelCouncil.ts 250-252): the terms
of the first completed response that occur in every completed response's
token list. -/
def consensusTerms (responses : List CouncilResponse) : List String :=
  let allTerms := (completedOf responses).map (fun r => tokenize r.content)
  (allTerms.headD []).filter (fun term => allTerms.all (fun terms => terms.contains term))

/-- `analyzeConsensus` (modelCouncil.ts 238-259). -/
def analyzeConsensus (responses : List CouncilResponse) : String :=
  let completed := completedOf responses
  if completed.length < 2 then "Insufficient responses for consensus analysis."
  else
    let commonTerms := consensusTerms responses
    if commonTerms.length > 5 then
      "Models agree on key points including: " ++
        String.intercalate ", " (commonTerms.take 5) ++ "."
    else "Models provide different perspectives on this topic."

/-- Does the character list start with the given pattern? -/
def startsWithChars : List Char → List Char → Bool
  | _, [] => true
  | [], _ :: _ => false
  | c :: cs, p :: ps => c == p && startsWithChars cs ps

/-- Does the pattern occur anywhere in the character list? -/
def charsContain (pat : List Char) : List Char → Bool
  | [] => startsWithChars [] pat
  | c :: rest => startsWithChars (c :: rest) pat || charsContain pat rest

/-- JS `s.includes(pat)`. -/
def hasSub (s pat : String) : Bool := charsContain pat.toList s.toList

/-- The pairwise yes/no check of `identifyDisagreements`
(modelCouncil.ts 268-276). -/
def yesNoClash (a b : String) : Bool :=
  let c1 := String.mk (a.toList.map Char.toLower)
  let c2 := String.mk (b.toList.map Char.toLower)
  (hasSub c1 "yes" && hasSub c2 "no") || (hasSub c1 "no" && hasSub c2 "yes")

/-- `completed.some((r1, i) => completed.slice(i + 1).some(r2 => ...))`. -/
def tailsClash : List CouncilResponse → Bool
  | [] => false
  | r :: rest => rest.any (fun r2 => yesNoClash r.content r2.content) || tailsClash rest

/-- `identifyDisagreements` (modelCouncil.ts 261-283). -/
def identifyDisagreements (responses : List CouncilResponse) : List String :=
  let completed := completedOf responses
  if completed.length < 2 then []
  else if tailsClash completed then ["Models appear to disagree on key facts."]
  else []

/-- How one backend's `runModel` promise settles (modelCouncil.ts 83-112):
either the model call succeeds (its chunks appended to `content`,
`isLoading` cleared, `timestamp` set) or it throws (`isLoading` cleared,
`error` set; chunks streamed before the failure remain in `content`). -/
inductive ModelOutcome where
  | success (text : String) (t : Nat)
  | failure (partialText : String) (msg : String)
deriving DecidableEq, Repr

/-- A response as created at session start (modelCouncil.ts 71-75). -/
def initResponse (modelId : String) : CouncilResponse :=
  { modelId := modelId, content := "", isLoading := true }

/-- Settle one response with its model outcome. -/
def settle (r : CouncilResponse) : ModelOutcome → CouncilResponse
  | .success text t =>
    { r with content := r.content ++ text, isLoading := false, timestamp := some t }
  | .failure partialText msg =>
    { r with content := r.content ++ partialText, isLoading := false, error := some msg }

/-- The `CouncilResult` produced by `runCouncil` (modelCouncil.ts 60-124)
once `Promise.all` has resolved: every response settled by its outcome, then
`consensus` and `disagreements` computed from the settled responses. -/
def runCouncilResult (query : String) (modelIds : List String)
    (outcomes : List ModelOutcome) : CouncilResult :=
  let responses := List.zipWith settle (modelIds.map initResponse) outcomes
  { query := query, responses := responses,
    consensus := some (analyzeConsensus responses),
    disagreements := some (identifyDisagreements responses) }

/-! ### Vote records (JS `Record<string, number>`) -/

/-- Read a key of a JS object used as a record (`m[k]`, absent keys read as
`undefined`). -/
def recGet : List (String × Int) → String → Option Int
  | [], _ => none
  | p :: rest, k => if p.1 = k then some p.2 else recGet rest k

/-- Write a key of a JS object used as a record (`m[k] = v`): overwrite in
place when present, append otherwise. -/
def recSet : List (String × Int) → String → Int → List (String × Int)
  | [], k, v => [(k, v)]
  | p :: rest, k, v => if p.1 = k then (k, v) :: rest else p :: recSet rest k v

/-- The winner scan of `voteForBest` (modelCouncil.ts 292-301): the first
entry with a strictly maximal count above 0, else the empty id. -/
def findWinner (m : List (String × Int)) : String × Int :=
  m.foldl (fun acc p => if p.2 > acc.2 then (p.1, p.2) else acc) ("", 0)

/-- `voteForBest` (modelCouncil.ts 285-305): increment the chosen model's
count and recompute `bestResponseId`.  No decrement of any previous vote. -/
def voteForBest (r : CouncilResult) (modelId : String) : CouncilResult :=
  let vr := r.votingResults.getD []
  let vr2 := recSet vr modelId ((recGet vr modelId).getD 0 + 1)
  { r with votingResults := some vr2, bestResponseId := some (findWinner vr2).1 }

/-! ## The Model Council panel (`startCouncil`, `voteForModel`)

The panel keeps its own session type: per-model `status` in
{pending, running, completed, error}, an optional `consensus`, a vote record
and the user's single active vote. -/

/-- The panel's `ModelResponse`. -/
structure PanelResponse where
  modelId : String
  modelName : String
  response : String
  latency : Nat
  status : Status
  error : Option String := none
deriving DecidableEq, Repr

/-- The panel's `CouncilSession`. -/
structure PanelSession where
  id : String
  query : String
  responses : List PanelResponse
  consensus : Option String := none
  votes : List (String × Int) := []
  userVote : Option String := none
  isRunning : Bool
  endTime : Option Nat := none
deriving DecidableEq, Repr

/-- A response as created by `startCouncil` (part_006 222-232). -/
def initPanelResponse (modelId modelName : String) : PanelResponse :=
  { modelId := modelId, modelName := modelName, response := "", latency := 0,
    status := .pending }

/-- `queryModel` (part_006 114-170) never throws: it returns either a
completed response or an error response.  `startCouncil`'s per-model task
(part_006 242-274) reads the abort flag before dispatch and again before
applying the result; the statuses it writes for one model, in order, are
captured here. -/
def councilStatusTrace (abortBefore abortAfter failed : Bool) : List Status :=
  if abortBefore then []
  else
    Status.running :: (if abortAfter then [] else [if failed then .error else .completed])

/-- `validResponses` (part_006 284): the non-null results whose status is
completed. -/
def validResponses (results : List (Option PanelResponse)) : List PanelResponse :=
  results.filterMap (fun r =>
    match r with
    | some resp => if resp.status = .completed then some resp else none
    | none => none)

/-- The finish logic of `startCouncil` (part_006 283-296): when at least 2
responses completed, the consensus text (from the dedicated synthesis call)
is stored and the session ends; otherwise the session ends with `consensus`
untouched. -/
def panelFinish (results : List (Option PanelResponse)) (consensusText : String)
    (t : Nat) (s : PanelSession) : PanelSession :=
  if 2 ≤ (validResponses results).length then
    { s with consensus := some consensusText, isRunning := false, endTime := some t }
  else
    { s with isRunning := false, endTime := some t }

/-- `voteForModel` (part_006 307-326): decrement the previous vote when one
exists, increment the new choice, record it as the user's active vote.  A
pure state update with no provider call. -/
def voteForModel (s : PanelSession) (modelId : String) : PanelSession :=
  let votes1 :=
    match s.userVote with
    | some prev => recSet s.votes prev ((recGet s.votes prev).getD 0 - 1)
    | none => s.votes
  let votes2 := recSet votes1 modelId ((recGet votes1 modelId).getD 0 + 1)
  { s with votes := votes2, userVote := some modelId }

/-! ## Predicates used by the theorems -/

/-- A terminal status: completed or error. -/
def terminalStatus : Status → Bool
  | .completed => true
  | .error => true
  | .pending => false
  | .running => false

/-- One allowed status transition: a terminal status may only move to a
terminal status, and no status moves (back) to pending. -/
def okStep : Status → Status → Bool
  | .completed, b => terminalStatus b
  | .error, b => terminalStatus b
  | .running, .pending => false
  | _, _ => true

/-- Every consecutive pair of the status sequence, starting from `a`, is an
allowed transition. -/
def monotoneFrom : Status → List Status → Bool
  | _, [] => true
  | a, b :: rest => okStep a b && monotoneFrom b rest

/-- The trace contains no observation of the abort flag. -/
def stopFree : List REvent → Bool
  | [] => true
  | .stopObserved :: _ => false
  | _ :: rest => stopFree rest

/-- Once the abort flag is observed, the trace ends: no event of any kind —
in particular no provider call and no state update — follows a
`stopObserved` event. -/
def cleanAfterStop : List REvent → Bool
  | [] => true
  | .stopObserved :: rest => rest.isEmpty
  | _ :: rest => cleanAfterStop rest

/-- Number of entries of the url-keyed collection holding the key `u`. -/
def countKey : List (String × Source) → String → Nat
  | [], _ => 0
  | p :: rest, u => (if p.1 = u then 1 else 0) + countKey rest u

/-- A completed session carries a non-empty final report. -/
def reportInv (s : RSession) : Prop :=
  s.ended = true → ∃ r, s.finalReport = some r ∧ r ≠ ""

/-! ## Concrete instances used by witnesses and counterexamples -/

/-- A run environment that is stopped at checkpoint 2. -/
def demoEnv : ResEnv :=
  { query := "rust", planOutcome := .error (), outcomes1 := [],
    gapsOutcome := .error (), outcomes2 := [], synthOutcome := .error (),
    stopTime := some 2 }

/-- A run environment whose initial search throws and that is never
stopped. -/
def demoFailEnv : ResEnv :=
  { query := "rust", planOutcome := .error (), outcomes1 := [.error ()],
    gapsOutcome := .error (), outcomes2 := [], synthOutcome := .error (),
    stopTime := none }

/-- A run environment that completes: searches succeed, every model call
falls back, never stopped. -/
def demoOkEnv : ResEnv :=
  { query := "rust", planOutcome := .error (), outcomes1 := [],
    gapsOutcome := .error (), outcomes2 := [], synthOutcome := .error (),
    stopTime := none }

/-- A source used in merge examples. -/
def demoSource : Source :=
  { title := "T", url := "u", domain := "u" }

/-- A second source sharing the url of `demoSource`. -/
def demoSource2 : Source :=
  { title := "T2", url := "u", domain := "u", snippet := some "s2" }

/-- A source with a different url. -/
def demoSourceOther : Source :=
  { title := "O", url := "w", domain := "w" }

/-- A council result with no votes cast yet. -/
def demoResult : CouncilResult :=
  { query := "q", responses := [] }

/-- A completed panel response. -/
def demoRespOk : PanelResponse :=
  { modelId := "kimi-k2", modelName := "Kimi K2", response := "fine",
    latency := 10, status := .completed }

/-- A failed panel response. -/
def demoRespErr : PanelResponse :=
  { modelId := "lmstudio", modelName := "LM Studio (Local)", response := "",
    latency := 5, status := .error, error := some "API error: 500" }

/-- The running panel session right before the finish logic, with the two
settled responses applied and no consensus yet. -/
def demoPanelRunning : PanelSession :=
  { id := "council-1", query := "q", responses := [demoRespOk, demoRespErr],
    isRunning := true }

/-- The results list of the same run: one completed, one error. -/
def demoPanelResults : List (Option PanelResponse) :=
  [some demoRespOk, some demoRespErr]

/-- A panel session whose user has an active vote for model a. -/
def demoVoteSession : PanelSession :=
  { id := "council-2", query := "q", responses := [],
    votes := [("a", 1)], userVote := some "a", isRunning := false }

/-- Completed council responses used to evaluate the keyword heuristic. -/
def demoRespSolar1 : CouncilResponse :=
  { modelId := "m1", content := "Solar power is renewable energy", isLoading := false }

/-- Second completed council response for the keyword heuristic. -/
def demoRespSolar2 : CouncilResponse :=
  { modelId := "m2", content := "Renewable energy includes solar power", isLoading := false }

/-! # Theorems -/

theorem statusesOf_append (id : StepId) (a b : List REvent) :
    statusesOf id (a ++ b) = statusesOf id a ++ statusesOf id b := by
  simp [statusesOf]

theorem statusesOf_replicate_call (id : StepId) (n : Nat) :
    statusesOf id (List.replicate n .call) = [] := by
  induction n with
  | zero => rfl
  | succ n ih =>
    simp only [List.replicate_succ, statusesOf, List.filterMap_cons] at ih ⊢
    exact ih

/-- Shape of one sub-query loop's trace: some number of provider calls,
followed by a single `stopObserved` exactly when the loop exit was an
observed abort. -/
theorem searchLoop_shape (st : Option Nat) :
    ∀ (k : Nat) (qs : List String) (outs : List SearchOutcome),
      ∃ n : Nat,
        ((searchLoop st k qs outs).2.2 ≠ .abortObserved ∧
          (searchLoop st k qs outs).1 = List.replicate n .call) ∨
        ((searchLoop st k qs outs).2.2 = .abortObserved ∧
          (searchLoop st k qs outs).1 = List.replicate n .call ++ [.stopObserved]) := by
  intro k qs
  induction qs generalizing k with
  | nil =>
    intro outs
    exact ⟨0, .inl ⟨by simp [searchLoop], by simp [searchLoop]⟩⟩
  | cons q qs ih =>
    intro outs
    simp only [searchLoop]
    cases hab : abortedAt st k with
    | true => exact ⟨0, .inr ⟨by simp, by simp⟩⟩
    | false =>
      simp only [Bool.false_eq_true, if_false]
      cases houts : outs.headD (.ok ([], "")) with
      | error e => exact ⟨1, .inl ⟨by simp, by simp [List.replicate]⟩⟩
      | ok v =>
        obtain ⟨n, h⟩ := ih (k + 1) outs.tail
        rcases h with ⟨h1, h2⟩ | ⟨h1, h2⟩
        · exact ⟨n + 1, .inl ⟨by simpa using h1, by simp [h2, List.replicate_succ]⟩⟩
        · exact ⟨n + 1, .inr ⟨by simpa using h1, by simp [h2, List.replicate_succ]⟩⟩

/-- The synthesize stage is either cut off by the abort checkpoint or runs
to completion. -/
theorem synthEvents_shape (env : ResEnv) (k : Nat) :
    synthEvents env k = [.stopObserved] ∨
    synthEvents env k =
      [.setStatus .synthesize .running, .call,
       .finish (synthesizeReport env.synthOutcome),
       .setResult .synthesize, .setStatus .synthesize .completed] := by
  unfold synthEvents
  split
  · exact .inl rfl
  · exact .inr rfl

/-- The `search-2` stage is an aborted loop, a thrown loop, a completed loop
followed by the synthesize stage, or the skipped branch followed by the
synthesize stage. -/
theorem gapsEvents_shape (env : ResEnv) (k : Nat) :
    (∃ n2, gapsEvents env k =
      .setStatus .search2 .running :: (List.replicate n2 .call ++ [.stopObserved])) ∨
    (∃ n2, gapsEvents env k =
      .setStatus .search2 .running :: (List.replicate n2 .call ++ [.setNotRunning])) ∨
    (∃ n2 k2, gapsEvents env k =
      .setStatus .search2 .running :: (List.replicate n2 .call ++
        ([.setResult .search2, .setStatus .search2 .completed] ++ synthEvents env k2))) ∨
    gapsEvents env k =
      [.setStatus .search2 .completed, .setResult .search2] ++ synthEvents env k := by
  simp only [gapsEvents]
  split
  · obtain ⟨n2, h⟩ :=
      searchLoop_shape env.stopTime k (identifyGaps env.gapsOutcome) env.outcomes2
    rcases h with ⟨h1, h2⟩ | ⟨h1, h2⟩
    · cases hexit :
        (searchLoop env.stopTime k (identifyGaps env.gapsOutcome) env.outcomes2).2.2 with
      | abortObserved => exact absurd hexit h1
      | threw => exact .inr (.inl ⟨n2, by simp [h2, hexit]⟩)
      | normal =>
        exact .inr (.inr (.inl ⟨n2,
          (searchLoop env.stopTime k (identifyGaps env.gapsOutcome) env.outcomes2).2.1,
          by simp [h2, hexit]⟩))
    · exact .inl ⟨n2, by simp [h2, h1]⟩
  · exact .inr (.inr (.inr rfl))

/-- The stages after the first search loop: each abort checkpoint either
cuts the trace or lets the next stage run. -/
theorem midEvents_shape (env : ResEnv) (k : Nat) :
    midEvents env k =
      [.setResult .search1, .setStatus .search1 .completed] ++ [.stopObserved] ∨
    midEvents env k =
      [.setResult .search1, .setStatus .search1 .completed] ++
      ([.setStatus .analyze1 .running, .setResult .analyze1,
        .setStatus .analyze1 .completed] ++ [.stopObserved]) ∨
    midEvents env k =
      [.setResult .search1, .setStatus .search1 .completed] ++
      ([.setStatus .analyze1 .running, .setResult .analyze1,
        .setStatus .analyze1 .completed] ++
       ([.setStatus .followup .running, .call, .setResult .followup,
         .setStatus .followup .completed] ++ [.stopObserved])) ∨
    midEvents env k =
      [.setResult .search1, .setStatus .search1 .completed] ++
      ([.setStatus .analyze1 .running, .setResult .analyze1,
        .setStatus .analyze1 .completed] ++
       ([.setStatus .followup .running, .call, .setResult .followup,
         .setStatus .followup .completed] ++ gapsEvents env (k + 3))) := by
  unfold midEvents
  split
  · exact .inl rfl
  · split
    · exact .inr (.inl rfl)
    · split
      · exact .inr (.inr (.inl rfl))
      · exact .inr (.inr (.inr rfl))

/-- The whole run trace: the plan stage always completes, then the run is
cut at checkpoint 0, or the first loop aborts or throws, or the remaining
stages follow. -/
theorem runEvents_shape (env : ResEnv) :
    runEvents env = planEvents ++ [.stopObserved] ∨
    (∃ n1, runEvents env = planEvents ++
      .setStatus .search1 .running :: (List.replicate n1 .call ++ [.stopObserved])) ∨
    (∃ n1, runEvents env = planEvents ++
      .setStatus .search1 .running :: (List.replicate n1 .call ++ [.setNotRunning])) ∨
    (∃ n1 k, runEvents env = planEvents ++
      .setStatus .search1 .running :: (List.replicate n1 .call ++ midEvents env k)) := by
  unfold runEvents
  split
  · exact .inl rfl
  · obtain ⟨n1, h⟩ := searchLoop_shape env.stopTime 1
      (createResearchPlan env.query env.planOutcome) env.outcomes1
    rcases h with ⟨h1, h2⟩ | ⟨h1, h2⟩
    · cases hexit : (searchLoop env.stopTime 1
          (createResearchPlan env.query env.planOutcome) env.outcomes1).2.2 with
      | abortObserved => exact absurd hexit h1
      | threw => exact .inr (.inr (.inl ⟨n1, by simp [h2, hexit]⟩))
      | normal =>
        exact .inr (.inr (.inr ⟨n1, (searchLoop env.stopTime 1
          (createResearchPlan env.query env.planOutcome) env.outcomes1).2.1,
          by simp [h2, hexit]⟩))
    · exact .inr (.inl ⟨n1, by simp [h2, h1]⟩)

@[simp]
theorem statusesOf_nil (id : StepId) : statusesOf id [] = [] := rfl

@[simp]
theorem statusesOf_cons_setStatus (id i : StepId) (st : Status) (l : List REvent) :
    statusesOf id (.setStatus i st :: l) =
      if i = id then st :: statusesOf id l else statusesOf id l := by
  simp only [statusesOf, List.filterMap_cons]
  split <;> simp_all

@[simp]
theorem statusesOf_cons_setResult (id i : StepId) (l : List REvent) :
    statusesOf id (.setResult i :: l) = statusesOf id l := by
  simp [statusesOf, List.filterMap_cons]

@[simp]
theorem statusesOf_cons_call (id : StepId) (l : List REvent) :
    statusesOf id (.call :: l) = statusesOf id l := by
  simp [statusesOf, List.filterMap_cons]

@[simp]
theorem statusesOf_cons_stopObserved (id : StepId) (l : List REvent) :
    statusesOf id (.stopObserved :: l) = statusesOf id l := by
  simp [statusesOf, List.filterMap_cons]

@[simp]
theorem statusesOf_cons_finish (id : StepId) (r : String) (l : List REvent) :
    statusesOf id (.finish r :: l) = statusesOf id l := by
  simp [statusesOf, List.filterMap_cons]

@[simp]
theorem statusesOf_cons_setNotRunning (id : StepId) (l : List REvent) :
    statusesOf id (.setNotRunning :: l) = statusesOf id l := by
  simp [statusesOf, List.filterMap_cons]

/-- Per-step status monotonicity of the research engine: in every
environment, every step's sequence of statuses follows the one-way order. -/
theorem research_statuses_monotone (env : ResEnv) (id : StepId) :
    monotoneFrom .pending (statusesOf id (runEvents env)) = true := by
  rcases runEvents_shape env with h | ⟨n1, h⟩ | ⟨n1, h⟩ | ⟨n1, k, h⟩
  · rw [h]; cases id <;> simp [statusesOf_append, planEvents] <;> decide
  · rw [h]; cases id <;> simp [statusesOf_append, statusesOf_replicate_call, planEvents] <;>
      decide
  · rw [h]; cases id <;> simp [statusesOf_append, statusesOf_replicate_call, planEvents] <;>
      decide
  · rcases midEvents_shape env k with h2 | h2 | h2 | h2
    · rw [h, h2]
      cases id <;> simp [statusesOf_append, statusesOf_replicate_call, planEvents] <;> decide
    · rw [h, h2]
      cases id <;> simp [statusesOf_append, statusesOf_replicate_call, planEvents] <;> decide
    · rw [h, h2]
      cases id <;> simp [statusesOf_append, statusesOf_replicate_call, planEvents] <;> decide
    · rcases gapsEvents_shape env (k + 3) with ⟨n2, h3⟩ | ⟨n2, h3⟩ | ⟨n2, k2, h3⟩ | h3
      · rw [h, h2, h3]
        cases id <;> simp [statusesOf_append, statusesOf_replicate_call, planEvents] <;> decide
      · rw [h, h2, h3]
        cases id <;> simp [statusesOf_append, statusesOf_replicate_call, planEvents] <;> decide
      · rcases synthEvents_shape env k2 with h4 | h4 <;> rw [h, h2, h3, h4] <;>
          cases id <;> simp [statusesOf_append, statusesOf_replicate_call, planEvents] <;>
          decide
      · rcases synthEvents_shape env (k + 3) with h4 | h4 <;> rw [h, h2, h3, h4] <;>
          cases id <;> simp [statusesOf_append, statusesOf_replicate_call, planEvents] <;>
          decide

/-! ### Claim C10: enrichSources -/

/-- Claim C10: `enrichSources` returns a list of exactly the first
`min 3 n` sources (later sources are dropped entirely); the i-th returned
source is the i-th input source with its content replaced by the fetched
page text when that is non-empty and by the source's snippet otherwise; and
`fetchPageContent` never fails — it returns the empty string on a non-2xx
response or a thrown error and the body otherwise. -/
theorem enrichSources_first_three :
    (∀ (fetch : String → FetchOutcome) (sources : List Source),
      (enrichSources fetch sources).length = min 3 sources.length) ∧
    (∀ (fetch : String → FetchOutcome) (sources : List Source) (i : Nat)
      (h : i < (enrichSources fetch sources).length) (h2 : i < sources.length),
      (enrichSources fetch sources).get ⟨i, h⟩ =
        { sources.get ⟨i, h2⟩ with
          content :=
            if fetchPageContent (fetch (sources.get ⟨i, h2⟩).url) = "" then
              (sources.get ⟨i, h2⟩).snippet
            else some (fetchPageContent (fetch (sources.get ⟨i, h2⟩).url)) }) ∧
    fetchPageContent .httpFail = "" ∧
    fetchPageContent .netFail = "" ∧
    (∀ body, fetchPageContent (.ok body) = body) := by
  refine ⟨fun fetch sources => ?_, fun fetch sources i h h2 => ?_, rfl, rfl, fun _ => rfl⟩
  · simp [enrichSources]
  · simp [enrichSources, enrichOne, List.get_eq_getElem, List.getElem_map,
      List.getElem_take]

/-- Witness for claim C10 at a concrete input: four sources, one failing
fetch. -/
theorem enrichSources_first_three_witness :
    (enrichSources (fun _ => .httpFail)
        [demoSource, demoSource2, demoSourceOther, demoSource]).length =
      min 3 [demoSource, demoSource2, demoSourceOther, demoSource].length ∧
    (enrichSources (fun _ => .httpFail)
        [demoSource, demoSource2, demoSourceOther, demoSource]).get ⟨1, by decide⟩ =
      { [demoSource, demoSource2, demoSourceOther, demoSource].get ⟨1, by decide⟩ with
        content :=
          if fetchPageContent ((fun _ => FetchOutcome.httpFail)
              (([demoSource, demoSource2, demoSourceOther, demoSource].get
                ⟨1, by decide⟩).url)) = "" then
            ([demoSource, demoSource2, demoSourceOther, demoSource].get
              ⟨1, by decide⟩).snippet
          else some (fetchPageContent ((fun _ => FetchOutcome.httpFail)
              (([demoSource, demoSource2, demoSourceOther, demoSource].get
                ⟨1, by decide⟩).url))) } :=
  ⟨enrichSources_first_three.1 (fun _ => .httpFail)
      [demoSource, demoSource2, demoSourceOther, demoSource],
   enrichSources_first_three.2.1 (fun _ => .httpFail)
      [demoSource, demoSource2, demoSourceOther, demoSource] 1 (by decide) (by decide)⟩

/-! ### Claim C8: the plan step's deterministic fallback -/

/-- Helper: in every environment the plan step runs and completes. -/
theorem statusesOf_plan_runEvents (env : ResEnv) :
    statusesOf .plan (runEvents env) = [.running, .completed] := by
  rcases runEvents_shape env with h | ⟨n1, h⟩ | ⟨n1, h⟩ | ⟨n1, k, h⟩
  · rw [h]; simp [statusesOf_append, planEvents]
  · rw [h]; simp [statusesOf_append, statusesOf_replicate_call, planEvents]
  · rw [h]; simp [statusesOf_append, statusesOf_replicate_call, planEvents]
  · rcases midEvents_shape env k with h2 | h2 | h2 | h2
    · rw [h, h2]; simp [statusesOf_append, statusesOf_replicate_call, planEvents]
    · rw [h, h2]; simp [statusesOf_append, statusesOf_replicate_call, planEvents]
    · rw [h, h2]; simp [statusesOf_append, statusesOf_replicate_call, planEvents]
    · rcases gapsEvents_shape env (k + 3) with ⟨n2, h3⟩ | ⟨n2, h3⟩ | ⟨n2, k2, h3⟩ | h3
      · rw [h, h2, h3]; simp [statusesOf_append, statusesOf_replicate_call, planEvents]
      · rw [h, h2, h3]; simp [statusesOf_append, statusesOf_replicate_call, planEvents]
      · rcases synthEvents_shape env k2 with h4 | h4 <;> rw [h, h2, h3, h4] <;>
          simp [statusesOf_append, statusesOf_replicate_call, planEvents]
      · rcases synthEvents_shape env (k + 3) with h4 | h4 <;> rw [h, h2, h3, h4] <;>
          simp [statusesOf_append, statusesOf_replicate_call, planEvents]

/-- Claim C8: when the plan model call fails, `createResearchPlan` returns
exactly the four templated sub-queries, and the plan step never ends in an
error — in every environment it runs and completes. -/
theorem plan_fallback_template :
    (∀ q : String, createResearchPlan q (.error ()) =
      [q ++ " overview", q ++ " latest developments",
       q ++ " examples and case studies", q ++ " expert opinions"]) ∧
    (∀ env : ResEnv, statusesOf .plan (runEvents env) = [.running, .completed]) :=
  ⟨fun _ => rfl, statusesOf_plan_runEvents⟩

/-! ### Claim C5: voting -/

theorem recGet_recSet_same (m : List (String × Int)) (k : String) (v : Int) :
    recGet (recSet m k v) k = some v := by
  induction m with
  | nil => simp [recSet, recGet]
  | cons p rest ih =>
    by_cases hp : p.1 = k
    · simp [recSet, hp, recGet]
    · simp [recSet, hp, recGet, ih]

theorem recGet_recSet_other (m : List (String × Int)) (k k2 : String) (v : Int)
    (h : k ≠ k2) :
    recGet (recSet m k v) k2 = recGet m k2 := by
  induction m with
  | nil => simp [recSet, recGet, h]
  | cons p rest ih =>
    by_cases hp : p.1 = k
    · subst hp; simp [recSet, recGet, h]
    · simp [recSet, hp, recGet, ih]

/-- Claim C5 counterexample: under the service's `voteForBest`, voting for
model a and then for model b leaves a's count at 1 — the previous vote is
not decremented, so the totals now hold two active votes from one user. -/
theorem voteForBest_accumulates :
    recGet ((voteForBest (voteForBest demoResult "a") "b").votingResults.getD []) "a"
        = some 1 ∧
    recGet ((voteForBest (voteForBest demoResult "a") "b").votingResults.getD []) "b"
        = some 1 := by
  decide

/-- Claim C5 as amended: the panel's `voteForModel` moves the single active
vote — with an active vote for a, voting for b decrements a's count,
increments b's count and records b as the active vote; the service's
`voteForBest` instead only increments the chosen model's count.  Both are
pure state updates. -/
theorem vote_moving_amended :
    (∀ (s : PanelSession) (a b : String), s.userVote = some a → a ≠ b →
      recGet (voteForModel s b).votes a = some ((recGet s.votes a).getD 0 - 1) ∧
      recGet (voteForModel s b).votes b = some ((recGet s.votes b).getD 0 + 1) ∧
      (voteForModel s b).userVote = some b) ∧
    (∀ (r : CouncilResult) (m : String),
      recGet ((voteForBest r m).votingResults.getD []) m =
        some ((recGet (r.votingResults.getD []) m).getD 0 + 1)) := by
  constructor
  · intro s a b hprev hne
    unfold voteForModel
    rw [hprev]
    refine ⟨?_, ?_, rfl⟩
    · rw [recGet_recSet_other _ b a _ (Ne.symm hne), recGet_recSet_same]
    · rw [recGet_recSet_same, recGet_recSet_other _ a b _ hne]
  · intro r m
    unfold voteForBest
    simp [recGet_recSet_same]

/-- Witness for the amended claim C5 at a concrete session with an active
vote for a. -/
theorem vote_moving_amended_witness :
    demoVoteSession.userVote = some "a" ∧
    recGet (voteForModel demoVoteSession "b").votes "a" =
      some ((recGet demoVoteSession.votes "a").getD 0 - 1) ∧
    recGet (voteForModel demoVoteSession "b").votes "b" =
      some ((recGet demoVoteSession.votes "b").getD 0 + 1) ∧
    (voteForModel demoVoteSession "b").userVote = some "b" :=
  ⟨rfl,
   (vote_moving_amended.1 demoVoteSession "a" "b" rfl (by decide)).1,
   (vote_moving_amended.1 demoVoteSession "a" "b" rfl (by decide)).2.1,
   (vote_moving_amended.1 demoVoteSession "a" "b" rfl (by decide)).2.2⟩

/-! ### Claim C6: source deduplication by url -/

theorem countKey_mapSet_same (m : List (String × Source)) (k : String) (v : Source) :
    countKey (mapSet m k v) k = max 1 (countKey m k) := by
  induction m with
  | nil => simp [mapSet, countKey]
  | cons p rest ih =>
    by_cases hp : p.1 = k
    · simp [mapSet, hp, countKey]
    · simp [mapSet, hp, countKey, ih]

theorem countKey_mapSet_other (m : List (String × Source)) (k u : String)
    (v : Source) (h : k ≠ u) :
    countKey (mapSet m k v) u = countKey m u := by
  induction m with
  | nil => simp [mapSet, countKey, h]
  | cons p rest ih =>
    by_cases hp : p.1 = k
    · subst hp; simp [mapSet, countKey, h]
    · simp [mapSet, hp, countKey, ih]

theorem countKey_addSources_le_one (l : List Source) :
    ∀ m : List (String × Source), countKey m u ≤ 1 →
      countKey (addSources m l) u ≤ 1 := by
  induction l with
  | nil => intro m hm; simpa [addSources] using hm
  | cons s rest ih =>
    intro m hm
    have hstep : addSources m (s :: rest) = addSources (mapSet m s.url s) rest := rfl
    rw [hstep]
    refine ih _ ?_
    by_cases hu : s.url = u
    · subst hu; rw [countKey_mapSet_same]; omega
    · rw [countKey_mapSet_other _ _ _ _ hu]; exact hm

theorem countKey_addSources_pos (l : List Source) :
    ∀ m : List (String × Source), 1 ≤ countKey m u →
      1 ≤ countKey (addSources m l) u := by
  induction l with
  | nil => intro m hm; simpa [addSources] using hm
  | cons s rest ih =>
    intro m hm
    have hstep : addSources m (s :: rest) = addSources (mapSet m s.url s) rest := rfl
    rw [hstep]
    refine ih _ ?_
    by_cases hu : s.url = u
    · subst hu; rw [countKey_mapSet_same]; omega
    · rw [countKey_mapSet_other _ _ _ _ hu]; exact hm

theorem countKey_addSources_mem (l : List Source) :
    ∀ m : List (String × Source), (∃ s ∈ l, s.url = u) →
      1 ≤ countKey (addSources m l) u := by
  induction l with
  | nil => intro m hm; simp at hm
  | cons s rest ih =>
    intro m hm
    have hstep : addSources m (s :: rest) = addSources (mapSet m s.url s) rest := rfl
    rw [hstep]
    by_cases hu : s.url = u
    · refine countKey_addSources_pos rest _ ?_
      subst hu; rw [countKey_mapSet_same]; omega
    · rcases hm with ⟨w, hw, hwu⟩
      rcases List.mem_cons.mp hw with h | h
      · exact absurd (h ▸ hwu) hu
      · exact ih _ ⟨w, h, hwu⟩

/-- Claim C6 as amended: merging source lists into the research service's
url-keyed `Map` deduplicates by url — when both lists contain the url, the
merged collection holds exactly one entry for it, in either merge order
(later merges overwrite that entry's value); the research component's
`startResearch` instead concatenates source lists into `allSources` without
deduplication. -/
theorem mapMerge_dedups (l1 l2 : List Source) (u : String)
    (h1 : ∃ s ∈ l1, s.url = u) (h2 : ∃ s ∈ l2, s.url = u) :
    countKey (addSources (addSources [] l1) l2) u = 1 ∧
    countKey (addSources (addSources [] l2) l1) u = 1 := by
  constructor
  · have hle : countKey (addSources (addSources [] l1) l2) u ≤ 1 :=
      countKey_addSources_le_one l2 _
        (countKey_addSources_le_one l1 [] (by simp [countKey]))
    have hge := countKey_addSources_mem l2 (addSources [] l1) h2
    omega
  · have hle : countKey (addSources (addSources [] l2) l1) u ≤ 1 :=
      countKey_addSources_le_one l1 _
        (countKey_addSources_le_one l2 [] (by simp [countKey]))
    have hge := countKey_addSources_mem l1 (addSources [] l2) h1
    omega

/-- Claim C6 counterexample: the component's push-merge keeps both entries
with the duplicated url — the merged collection does not contain exactly one
entry for it. -/
theorem pushSources_keeps_duplicates :
    ((pushSources [demoSource] [demoSource2]).filter
      (fun s => s.url == "u")).length = 2 := by
  decide

/-- Witness for the amended claim C6 at concrete lists sharing the url. -/
theorem mapMerge_dedups_witness :
    (∃ s ∈ [demoSource, demoSourceOther], s.url = "u") ∧
    (∃ s ∈ [demoSource2], s.url = "u") ∧
    countKey (addSources (addSources [] [demoSource, demoSourceOther])
      [demoSource2]) "u" = 1 ∧
    countKey (addSources (addSources [] [demoSource2])
      [demoSource, demoSourceOther]) "u" = 1 :=
  ⟨by decide, by decide,
   (mapMerge_dedups [demoSource, demoSourceOther] [demoSource2] "u"
      (by decide) (by decide)).1,
   (mapMerge_dedups [demoSource, demoSourceOther] [demoSource2] "u"
      (by decide) (by decide)).2⟩

/-! ### Claim C7: the consensus keyword heuristic -/

/-- Helper: with fewer than 2 completed responses `analyzeConsensus` takes
the insufficient branch and computes no keyword set. -/
theorem analyzeConsensus_insufficient (responses : List CouncilResponse)
    (h : (completedOf responses).length < 2) :
    analyzeConsensus responses = "Insufficient responses for consensus analysis." := by
  unfold analyzeConsensus
  simp [h]

/-- Claim C7: every keyword returned by the consensus heuristic is a token
longer than 4 characters of every completed response's tokenization
(lowercased, punctuation stripped, whitespace split, length-filtered), and
with fewer than 2 completed responses the heuristic produces the
insufficient-responses message instead of a keyword set. -/
theorem consensus_keywords_spec :
    (∀ (responses : List CouncilResponse) (w : String), w ∈ consensusTerms responses →
      w.length > 4 ∧ ∀ r ∈ completedOf responses, w ∈ tokenize r.content) ∧
    (∀ responses : List CouncilResponse, (completedOf responses).length < 2 →
      analyzeConsensus responses = "Insufficient responses for consensus analysis.") := by
  refine ⟨?_, analyzeConsensus_insufficient⟩
  intro responses w hw
  unfold consensusTerms at hw
  rw [List.mem_filter] at hw
  obtain ⟨hhead, hall⟩ := hw
  have hall2 := List.all_eq_true.mp hall
  constructor
  · cases hc : completedOf responses with
    | nil => rw [hc] at hhead; simp at hhead
    | cons r0 rest =>
      rw [hc] at hhead
      simp only [List.map_cons, List.headD_cons] at hhead
      unfold tokenize at hhead
      rw [List.mem_filter] at hhead
      exact of_decide_eq_true hhead.2
  · intro r hr
    have hmem : tokenize r.content ∈
        (completedOf responses).map (fun r => tokenize r.content) :=
      List.mem_map_of_mem _ hr
    have hcontains := hall2 _ hmem
    simpa using hcontains

/-- Witness for claim C7: two completed responses sharing the >4-character
words, and the empty response list taking the insufficient branch. -/
theorem consensus_keywords_spec_witness :
    ("solar" ∈ consensusTerms [demoRespSolar1, demoRespSolar2] ∧
      "solar".length > 4 ∧
      ∀ r ∈ completedOf [demoRespSolar1, demoRespSolar2],
        "solar" ∈ tokenize r.content) ∧
    ((completedOf []).length < 2 ∧
      analyzeConsensus [] = "Insufficient responses for consensus analysis.") :=
  ⟨⟨by decide,
    (consensus_keywords_spec.1 [demoRespSolar1, demoRespSolar2] "solar" (by decide)).1,
    (consensus_keywords_spec.1 [demoRespSolar1, demoRespSolar2] "solar" (by decide)).2⟩,
   ⟨by decide, consensus_keywords_spec.2 [] (by decide)⟩⟩

/-! ### Claim C1: consensus after all responses settle -/

/-- Every settled response is terminal (`isLoading = false`). -/
theorem settle_isLoading (r : CouncilResponse) (o : ModelOutcome) :
    (settle r o).isLoading = false := by
  cases o <;> rfl

/-- Every response of a finished `runCouncil` result is settled hence
terminal. -/
theorem zipWith_settle_isLoading :
    ∀ (as : List CouncilResponse) (bs : List ModelOutcome) (r : CouncilResponse),
      r ∈ List.zipWith settle as bs → r.isLoading = false := by
  intro as
  induction as with
  | nil => intro bs r hr; simp at hr
  | cons a rest ih =>
    intro bs r hr
    cases bs with
    | nil => simp at hr
    | cons b bs2 =>
      rw [List.zipWith_cons_cons] at hr
      rcases List.mem_cons.mp hr with h | h
      · subst h; exact settle_isLoading a b
      · exact ih bs2 r h

/-- Claim C1 counterexample: a finished panel council run (all responses
terminal, no longer running) with only one completed response has an absent
`consensus` — it is left unset rather than holding an insufficient-responses
message. -/
theorem panel_consensus_left_unset :
    (panelFinish demoPanelResults "analysis" 7 demoPanelRunning).isRunning = false ∧
    (∀ r ∈ (panelFinish demoPanelResults "analysis" 7 demoPanelRunning).responses,
      terminalStatus r.status = true) ∧
    (panelFinish demoPanelResults "analysis" 7 demoPanelRunning).consensus = none := by
  refine ⟨by decide, by decide, by decide⟩

/-- Claim C1 as amended: the service's `runCouncil` computes `consensus`
only once every response has settled (all are terminal at that point) and
always sets it — the insufficient-responses message when fewer than 2
completed; the panel's `startCouncil`, however, stores a consensus only when
at least 2 responses completed and otherwise ends the session with
`consensus` left as it was (absent). -/
theorem council_consensus_amended :
    (∀ (q : String) (ids : List String) (outs : List ModelOutcome),
      (∀ r ∈ (runCouncilResult q ids outs).responses, r.isLoading = false) ∧
      (runCouncilResult q ids outs).consensus =
        some (analyzeConsensus (runCouncilResult q ids outs).responses)) ∧
    (∀ responses : List CouncilResponse, (completedOf responses).length < 2 →
      analyzeConsensus responses = "Insufficient responses for consensus analysis.") ∧
    (∀ (results : List (Option PanelResponse)) (c : String) (t : Nat)
        (s : PanelSession),
      (2 ≤ (validResponses results).length →
        (panelFinish results c t s).consensus = some c) ∧
      ((validResponses results).length < 2 →
        (panelFinish results c t s).consensus = s.consensus) ∧
      (panelFinish results c t s).isRunning = false) := by
  refine ⟨?_, analyzeConsensus_insufficient, ?_⟩
  · intro q ids outs
    exact ⟨fun r hr => zipWith_settle_isLoading _ _ r hr, rfl⟩
  · intro results c t s
    unfold panelFinish
    by_cases hb : 2 ≤ (validResponses results).length
    · rw [if_pos hb]
      exact ⟨fun _ => rfl, fun hlt => absurd hb (by omega), rfl⟩
    · rw [if_neg hb]
      exact ⟨fun h2 => absurd h2 hb, fun _ => rfl, rfl⟩

/-- Witness for the amended claim C1: a service run with one failed backend,
the empty response list for the insufficient branch, and a panel finish with
two completed responses. -/
theorem council_consensus_amended_witness :
    (∀ r ∈ (runCouncilResult "q" ["kimi-k2"] [.failure "" "boom"]).responses,
      r.isLoading = false) ∧
    ((completedOf []).length < 2 ∧
      analyzeConsensus [] = "Insufficient responses for consensus analysis.") ∧
    (2 ≤ (validResponses [some demoRespOk, some demoRespOk]).length ∧
      (panelFinish [some demoRespOk, some demoRespOk] "agreed" 3
        demoPanelRunning).consensus = some "agreed") :=
  ⟨(council_consensus_amended.1 "q" ["kimi-k2"] [.failure "" "boom"]).1,
   ⟨by decide, council_consensus_amended.2.1 [] (by decide)⟩,
   ⟨by decide,
    (council_consensus_amended.2.2 [some demoRespOk, some demoRespOk] "agreed" 3
      demoPanelRunning).1 (by decide)⟩⟩

/-! ### Claim C2: one-way status transitions -/

/-- Claim C2: in every environment of the research engine, every step's
status sequence (from its initial pending) is monotone — no transition out
of a terminal status, no return to pending; and in the council panel's
per-model update sequence (for any abort-flag readings and call outcome)
the response status is likewise monotone. -/
theorem statuses_one_way :
    (∀ (env : ResEnv) (id : StepId),
      monotoneFrom .pending (statusesOf id (runEvents env)) = true) ∧
    (∀ abortBefore abortAfter failed : Bool,
      monotoneFrom .pending (councilStatusTrace abortBefore abortAfter failed) = true) := by
  refine ⟨research_statuses_monotone, ?_⟩
  intro a b f
  cases a <;> cases b <;> cases f <;> decide

/-! ### Claim C3: cancellation -/

@[simp]
theorem cleanAfterStop_nil : cleanAfterStop [] = true := rfl

@[simp]
theorem cleanAfterStop_cons_setStatus (i : StepId) (st : Status) (l : List REvent) :
    cleanAfterStop (.setStatus i st :: l) = cleanAfterStop l := rfl

@[simp]
theorem cleanAfterStop_cons_setResult (i : StepId) (l : List REvent) :
    cleanAfterStop (.setResult i :: l) = cleanAfterStop l := rfl

@[simp]
theorem cleanAfterStop_cons_call (l : List REvent) :
    cleanAfterStop (.call :: l) = cleanAfterStop l := rfl

@[simp]
theorem cleanAfterStop_cons_finish (r : String) (l : List REvent) :
    cleanAfterStop (.finish r :: l) = cleanAfterStop l := rfl

@[simp]
theorem cleanAfterStop_cons_setNotRunning (l : List REvent) :
    cleanAfterStop (.setNotRunning :: l) = cleanAfterStop l := rfl

@[simp]
theorem cleanAfterStop_cons_stopObserved (l : List REvent) :
    cleanAfterStop (.stopObserved :: l) = l.isEmpty := rfl

@[simp]
theorem cleanAfterStop_replicate_call_append (n : Nat) (l : List REvent) :
    cleanAfterStop (List.replicate n .call ++ l) = cleanAfterStop l := by
  induction n with
  | zero => rfl
  | succ n ih => simp [List.replicate_succ, ih]

/-- Helper: in every environment, once a checkpoint observes the abort flag
the trace ends — nothing (in particular no provider call) follows a
`stopObserved` event. -/
theorem runEvents_cleanAfterStop (env : ResEnv) :
    cleanAfterStop (runEvents env) = true := by
  rcases runEvents_shape env with h | ⟨n1, h⟩ | ⟨n1, h⟩ | ⟨n1, k, h⟩
  · rw [h]; simp [planEvents]
  · rw [h]; simp [planEvents]
  · rw [h]; simp [planEvents]
  · rcases midEvents_shape env k with h2 | h2 | h2 | h2
    · rw [h, h2]; simp [planEvents]
    · rw [h, h2]; simp [planEvents]
    · rw [h, h2]; simp [planEvents]
    · rcases gapsEvents_shape env (k + 3) with ⟨n2, h3⟩ | ⟨n2, h3⟩ | ⟨n2, k2, h3⟩ | h3
      · rw [h, h2, h3]; simp [planEvents]
      · rw [h, h2, h3]; simp [planEvents]
      · rcases synthEvents_shape env k2 with h4 | h4 <;> rw [h, h2, h3, h4] <;>
          simp [planEvents]
      · rcases synthEvents_shape env (k + 3) with h4 | h4 <;> rw [h, h2, h3, h4] <;>
          simp [planEvents]

/-- No engine event ever sets `isRunning` back to true. -/
theorem applyEvent_keeps_stopped (s : RSession) (e : REvent)
    (h : s.isRunning = false) :
    (applyEvent s e).isRunning = false := by
  cases e <;> simp [applyEvent, h]

theorem applyEvents_keep_stopped (l : List REvent) :
    ∀ s : RSession, s.isRunning = false → (applyEvents s l).isRunning = false := by
  induction l with
  | nil => intro s h; exact h
  | cons e rest ih =>
    intro s h
    have hstep := applyEvent_keeps_stopped s e h
    simpa [applyEvents, List.foldl_cons] using ih (applyEvent s e) hstep

/-- Claim C3: a stop request immediately puts the session in the
non-running state (`stopResearch`), the engine's trace never continues past
the checkpoint that observes the abort flag — so no further provider call is
issued — and no subsequent engine event ever brings the session back to
running, so the session stays in its stopped terminal state. -/
theorem stop_halts_engine :
    (∀ s : RSession, (stopResearch s).isRunning = false) ∧
    (∀ env : ResEnv, cleanAfterStop (runEvents env) = true) ∧
    (∀ (env : ResEnv) (s : RSession), s.isRunning = false →
      (applyEvents s (runEvents env)).isRunning = false) := by
  refine ⟨fun s => rfl, runEvents_cleanAfterStop, ?_⟩
  intro env s h
  exact applyEvents_keep_stopped (runEvents env) s h

/-- Witness for claim C3 at a concrete stopped session and environment. -/
theorem stop_halts_engine_witness :
    (stopResearch initialSession).isRunning = false ∧
    cleanAfterStop (runEvents demoEnv) = true ∧
    (applyEvents (stopResearch initialSession) (runEvents demoEnv)).isRunning = false :=
  ⟨stop_halts_engine.1 initialSession,
   stop_halts_engine.2.1 demoEnv,
   stop_halts_engine.2.2 demoEnv (stopResearch initialSession) rfl⟩

/-! ### Claim C4: a failing initial search aborts the run -/

/-- Claim C4: in any run that was not stopped, with a non-empty plan, whose
first `executeSearch` throws (the search call failed), the failure
propagates to the catch handler: the analyze step never receives a status
(it stays pending), no final report is ever stored, the trace ends with the
handler clearing `isRunning`, and the resulting session is no longer running
and has no `finalReport`. -/
theorem search_failure_aborts (env : ResEnv)
    (hstop : env.stopTime = none)
    (hplan : createResearchPlan env.query env.planOutcome ≠ [])
    (hfail : env.outcomes1.headD (.ok ([], "")) = .error ()) :
    statusesOf .analyze1 (runEvents env) = [] ∧
    (∀ r : String, REvent.finish r ∉ runEvents env) ∧
    (runEvents env).getLast? = some .setNotRunning ∧
    (applyEvents initialSession (runEvents env)).isRunning = false ∧
    (applyEvents initialSession (runEvents env)).finalReport = none := by
  obtain ⟨q, qs, hq⟩ := List.exists_cons_of_ne_nil hplan
  have hrun : runEvents env =
      planEvents ++ .setStatus .search1 .running :: ([.call] ++ [.setNotRunning]) := by
    have hfail2 : env.outcomes1.head?.getD (Except.ok ([], "")) = .error () := by
      simpa using hfail
    unfold runEvents
    rw [hq, hstop]
    simp [searchLoop, abortedAt, hfail2]
  rw [hrun]
  refine ⟨by simp [planEvents], ?_, by simp [planEvents], ?_, ?_⟩
  · intro r
    simp [planEvents]
  · simp [planEvents, applyEvents, applyEvent, initialSession]
  · simp [planEvents, applyEvents, applyEvent, initialSession]

/-- Witness for claim C4 at the concrete failing environment. -/
theorem search_failure_aborts_witness :
    statusesOf .analyze1 (runEvents demoFailEnv) = [] ∧
    (applyEvents initialSession (runEvents demoFailEnv)).isRunning = false ∧
    (applyEvents initialSession (runEvents demoFailEnv)).finalReport = none :=
  ⟨(search_failure_aborts demoFailEnv rfl (by decide) rfl).1,
   (search_failure_aborts demoFailEnv rfl (by decide) rfl).2.2.2.1,
   (search_failure_aborts demoFailEnv rfl (by decide) rfl).2.2.2.2⟩

/-! ### Claim C9: completed runs carry a non-empty final report -/

/-- `synthesizeReport` never returns empty text: a successful call returns
the model content (empty content falls back), a failed call returns the
safe fallback message. -/
theorem synthesizeReport_ne_empty (outcome : Except Unit (Option String)) :
    synthesizeReport outcome ≠ "" := by
  rcases outcome with e | c
  · simp [synthesizeReport]
  · rcases c with _ | c
    · simp [synthesizeReport]
    · simp only [synthesizeReport]
      split
      · simp
      · assumption

/-- The only `finish` event a run trace can contain carries the synthesized
report. -/
theorem runEvents_finish_report (env : ResEnv) (r : String)
    (hr : REvent.finish r ∈ runEvents env) :
    r = synthesizeReport env.synthOutcome := by
  rcases runEvents_shape env with h | ⟨n1, h⟩ | ⟨n1, h⟩ | ⟨n1, k, h⟩
  · rw [h] at hr; simp [planEvents, List.mem_replicate] at hr
  · rw [h] at hr; simp [planEvents, List.mem_replicate] at hr
  · rw [h] at hr; simp [planEvents, List.mem_replicate] at hr
  · rcases midEvents_shape env k with h2 | h2 | h2 | h2
    · rw [h, h2] at hr; simp [planEvents, List.mem_replicate] at hr
    · rw [h, h2] at hr; simp [planEvents, List.mem_replicate] at hr
    · rw [h, h2] at hr; simp [planEvents, List.mem_replicate] at hr
    · rcases gapsEvents_shape env (k + 3) with ⟨n2, h3⟩ | ⟨n2, h3⟩ | ⟨n2, k2, h3⟩ | h3
      · rw [h, h2, h3] at hr; simp [planEvents, List.mem_replicate] at hr
      · rw [h, h2, h3] at hr; simp [planEvents, List.mem_replicate] at hr
      · rcases synthEvents_shape env k2 with h4 | h4
        · rw [h, h2, h3, h4] at hr
          simp [planEvents, List.mem_replicate] at hr
        · rw [h, h2, h3, h4] at hr
          simp [planEvents, List.mem_replicate] at hr
          exact hr
      · rcases synthEvents_shape env (k + 3) with h4 | h4
        · rw [h, h2, h3, h4] at hr
          simp [planEvents, List.mem_replicate] at hr
        · rw [h, h2, h3, h4] at hr
          simp [planEvents, List.mem_replicate] at hr
          exact hr

/-- Folding events whose every `finish` carries non-empty text preserves the
completed-implies-non-empty-report invariant. -/
theorem applyEvents_reportInv (l : List REvent)
    (hl : ∀ r, REvent.finish r ∈ l → r ≠ "") :
    ∀ s : RSession, reportInv s → reportInv (applyEvents s l) := by
  induction l with
  | nil => intro s hs; exact hs
  | cons e rest ih =>
    intro s hs
    have hrest : ∀ r, REvent.finish r ∈ rest → r ≠ "" := fun r hr =>
      hl r (List.mem_cons_of_mem _ hr)
    have hstep : reportInv (applyEvent s e) := by
      cases e with
      | finish r =>
        intro _
        exact ⟨r, rfl, hl r (List.mem_cons_self _ _)⟩
      | setStatus i st => intro hend; exact hs hend
      | setResult i => intro hend; exact hs hend
      | call => intro hend; exact hs hend
      | stopObserved => intro hend; exact hs hend
      | setNotRunning => intro hend; exact hs hend
    simpa [applyEvents, List.foldl_cons] using ih hrest (applyEvent s e) hstep

/-- Claim C9: the synthesis step always stores non-empty text (the model
report, or a safe fallback), and consequently any session state reached by
an engine run from a state satisfying the completed-implies-report
invariant — in particular the fresh session — still satisfies it: a
completed run always carries a non-empty `finalReport`. -/
theorem completed_has_final_report :
    (∀ outcome : Except Unit (Option String), synthesizeReport outcome ≠ "") ∧
    (∀ (env : ResEnv) (s : RSession), reportInv s →
      reportInv (applyEvents s (runEvents env))) ∧
    (∀ env : ResEnv, reportInv (applyEvents initialSession (runEvents env))) := by
  have hmain : ∀ (env : ResEnv) (s : RSession), reportInv s →
      reportInv (applyEvents s (runEvents env)) := by
    intro env s hs
    refine applyEvents_reportInv (runEvents env) ?_ s hs
    intro r hr
    rw [runEvents_finish_report env r hr]
    exact synthesizeReport_ne_empty env.synthOutcome
  exact ⟨synthesizeReport_ne_empty, hmain,
    fun env => hmain env initialSession (by intro h; simp [initialSession] at h)⟩

/-- Witness for claim C9: the environment `demoOkEnv` completes its run, and
the resulting session holds a non-empty final report. -/
theorem completed_has_final_report_witness :
    (applyEvents initialSession (runEvents demoOkEnv)).ended = true ∧
    ∃ r, (applyEvents initialSession (runEvents demoOkEnv)).finalReport = some r ∧
      r ≠ "" :=
  ⟨by decide, completed_has_final_report.2.2 demoOkEnv (by decide)⟩

end ShootingStar
